import Mathlib

/-!
Verification of the gpu_waiter scheduler core against its specification.

The development shallowly embeds the three source files:
* `src/command.rs` — the command-line template engine (`process_command_template`);
* `src/lock.rs`    — the cross-process file lock (`open_or_create_file`, `FileRWLock`);
* `src/main.rs`    — the admission loop (`get_idle_gpu`, truncation to the requested
  count, the `has_template` pre-validation and the `CUDA_VISIBLE_DEVICES` decision),
  and, for the cross-process mutual-exclusion argument, a two-process interleaving
  model of the lock-guarded enumerate-and-hold critical section.

Strings are embedded as `List Char`; Rust `usize` byte indices are `Nat`, with
`usize::MAX` made explicit, since the scanner stores byte offsets obtained from
`char_indices` while the processing phase consumes characters.
-/

namespace GpuWaiter

/-! ## Template engine (src/command.rs) -/

/-- Rust `usize::MAX`, used by `process_command_template` as the open end of the
final segment. -/
def USIZE_MAX : Nat := 2 ^ 64 - 1

/-- `enum SegmentStatus` of command.rs: the scanner state, holding the byte index
where the current segment started. -/
inductive SegmentStatus
  | Plain (s : Nat)
  | Bracket (s : Nat)
deriving DecidableEq

/-- `enum Segment` of command.rs: a half-open byte-index span of the command,
either plain characters or a maximal run of `(` brace `)` characters. -/
inductive Segment
  | Plain (s e : Nat)
  | Bracket (s e : Nat)
deriving DecidableEq

/-- `struct TemplateResult` of command.rs. `template_count` is incremented for
every recognised two-character chunk (substitutions and escapes alike), while
`total_count` is incremented only for real substitutions. -/
structure TemplateResult where
  command : List Char
  template_count : Nat
  total_count : Nat
deriving DecidableEq

/-- Rust `str::char_indices` starting at byte offset `i`: pairs each character
with its byte offset (`Char.utf8Size` bytes per character). -/
def charIndices : Nat → List Char → List (Nat × Char)
  | _, [] => []
  | i, c :: cs => (i, c) :: charIndices (i + c.utf8Size) cs

/-- Whether a character is one of the two marker characters. -/
def isBrace (c : Char) : Bool := c == '{' || c == '}'

/-- The segment scan of `process_command_template` (command.rs lines 31–60): a
state machine over `char_indices`, cutting the command into alternating `Plain`
and `Bracket` spans of byte indices; the final open segment ends at
`usize::MAX`. -/
def scanLoop : Option SegmentStatus → List (Nat × Char) → List Segment
  | st, [] =>
    match st with
    | some (.Plain s) => [Segment.Plain s USIZE_MAX]
    | some (.Bracket s) => [Segment.Bracket s USIZE_MAX]
    | none => []
  | st, (i, c) :: rest =>
    match st, isBrace c with
    | none, true => scanLoop (some (.Bracket i)) rest
    | none, false => scanLoop (some (.Plain i)) rest
    | some (.Plain s), true => Segment.Plain s i :: scanLoop (some (.Bracket i)) rest
    | some (.Plain _), false => scanLoop st rest
    | some (.Bracket s), false => Segment.Bracket s i :: scanLoop (some (.Plain i)) rest
    | some (.Bracket _), true => scanLoop st rest

/-- `itertools` `chunks(2)` over the characters of a bracket span: groups of two
characters, with a possibly shorter final group. -/
def chunks2 : List Char → List (List Char)
  | [] => []
  | [c] => [[c]]
  | c1 :: c2 :: rest => [c1, c2] :: chunks2 rest

/-- The 2-character chunk matching of command.rs lines 76–96. Returns the text
emitted for the chunks together with the increments to `template_count` and
`total_count`; on an unrecognised chunk it fails carrying the whole bracket-span
content, as `anyhow::bail!` does. -/
def processChunks (tpl content : List Char) : List (List Char) → Except (List Char) (List Char × Nat × Nat)
  | [] => .ok ([], 0, 0)
  | chunk :: rest =>
    if chunk = ['{', '}'] then
      (processChunks tpl content rest).map fun r => (tpl ++ r.1, r.2.1 + 1, r.2.2 + 1)
    else if chunk = ['{', '{'] then
      (processChunks tpl content rest).map fun r => ('{' :: r.1, r.2.1 + 1, r.2.2)
    else if chunk = ['}', '}'] then
      (processChunks tpl content rest).map fun r => ('}' :: r.1, r.2.1 + 1, r.2.2)
    else .error content

/-- The segment-processing loop of command.rs lines 62–100. `chrs` is the shared
`command.chars()` iterator: each segment takes `end - start` characters from it
(`take`) and the iterator advances past them (`drop`) — note `end` and `start`
are byte indices. Bracket spans equal to a lone `(` open or close brace `)` or
to the two-character close-open pair are passed through literally; any other
bracket span is matched in 2-character chunks. -/
def procSegs (tpl : List Char) : List Segment → List Char → List Char → Nat → Nat → Except (List Char) TemplateResult
  | [], _, acc, tc, tot => .ok ⟨acc, tc, tot⟩
  | Segment.Plain s e :: rest, chrs, acc, tc, tot =>
    procSegs tpl rest (chrs.drop (e - s)) (acc ++ chrs.take (e - s)) tc tot
  | Segment.Bracket s e :: rest, chrs, acc, tc, tot =>
    if chrs.take (e - s) = ['{'] ∨ chrs.take (e - s) = ['}'] ∨ chrs.take (e - s) = ['}', '{'] then
      procSegs tpl rest (chrs.drop (e - s)) (acc ++ chrs.take (e - s)) tc tot
    else
      match processChunks tpl (chrs.take (e - s)) (chunks2 (chrs.take (e - s))) with
      | .error err => .error err
      | .ok (out, dtc, dtot) =>
        procSegs tpl rest (chrs.drop (e - s)) (acc ++ out) (tc + dtc) (tot + dtot)

/-- `process_command_template` of command.rs: scan the command into segments,
then process them against the substitution string `tpl`. -/
def process_command_template (command tpl : List Char) : Except (List Char) TemplateResult :=
  procSegs tpl (scanLoop none (charIndices 0 command)) command [] 0 0

/-! ## Admission scheduler (src/main.rs)

The NVML backend is modelled as an oracle `running : Nat → Nat` giving each
device index its `running_compute_processes_count`, with `device_count` devices
in total. `get_idle_gpu` mirrors main.rs lines 64–75 on its success path. -/

/-- `get_idle_gpu` of main.rs: the device indices `0..device_count` whose
running-compute-process count is zero, in ascending order. -/
def get_idle_gpu (running : Nat → Nat) (device_count : Nat) : List Nat :=
  (List.range device_count).filter (fun i => running i == 0)

/-- The successful polling iteration of main.rs lines 146–155: when at least
`num` devices are idle, `idle_gpus.splice(num.., empty)` keeps exactly the first
`num` entries of the idle list. -/
def claim_gpus (running : Nat → Nat) (device_count num : Nat) : List Nat :=
  (get_idle_gpu running device_count).take num

/-- The comma-joined decimal identifier list of main.rs lines 214–218. -/
def gpu_list_str (ids : List Nat) : String :=
  String.intercalate "," (ids.map toString)

/-- The pre-validation fold of main.rs lines 114–130 over the UTF-8 command
arguments: each argument is expanded against the empty substitution string, an
expansion error aborts, and `has_template` becomes true as soon as some
argument reports `template_count > 0`. -/
def has_template_scan : List (List Char) → Bool → Except (List Char) Bool
  | [], acc => .ok acc
  | a :: rest, acc =>
    match process_command_template a [] with
    | .error e => .error e
    | .ok r => has_template_scan rest (acc || decide (0 < r.template_count))

/-- The environment decision of main.rs lines 233–237: `CUDA_VISIBLE_DEVICES`
is bound iff `!has_template || force_env`. -/
def cuda_env_bound (has_template force_env : Bool) : Bool :=
  !has_template || force_env

/-- The composed pipeline: pre-validate the arguments, then decide whether the
environment variable is bound to the child. -/
def env_decision (args : List (List Char)) (force_env : Bool) : Except (List Char) Bool :=
  (has_template_scan args false).map (fun ht => cuda_env_bound ht force_env)

/-! ## Cross-process lock (src/lock.rs)

The filesystem is modelled by the outcomes of the three I/O calls the function
can make: the first `File::open`, the `File::create_new`, and the fallback
`File::open` after a creation race. File handles are opaque tokens (`Nat`).
The `set_permissions` call after a successful create only logs on failure and
does not affect the result. -/

/-- The `io::ErrorKind` values `open_or_create_file` distinguishes. -/
inductive IoErrorKind
  | notFound
  | alreadyExists
  | otherError
deriving DecidableEq

/-- `open_or_create_file` of lock.rs lines 43–82: try to open; on `NotFound`
try to create; if creation fails with `AlreadyExists` (another process won the
race), fall back to a plain open. -/
def open_or_create_file (openRes createRes reopenRes : Except IoErrorKind Nat) :
    Except IoErrorKind Nat :=
  match openRes with
  | .ok f => .ok f
  | .error e =>
    if e ≠ .notFound then
      .error e
    else
      match createRes with
      | .ok f => .ok f
      | .error e2 =>
        if e2 = .alreadyExists then reopenRes else .error e2

/-- `FileRWLock::new` of lock.rs lines 85–96: panics (modelled as `none`) when
the guessed runtime directory does not exist, otherwise opens or creates the
lock file. -/
def fileRWLock_new (dirExists : Bool) (openRes createRes reopenRes : Except IoErrorKind Nat) :
    Option (Except IoErrorKind Nat) :=
  if dirExists then some (open_or_create_file openRes createRes reopenRes) else none

/-! ## Two concurrent schedulers (src/main.rs lines 146–189, src/lock.rs)

An interleaving model of two instances of the tool contending for the same
devices. Shared state: the holder of the exclusive file lock, and the backend's
busy predicate (a device is busy when its running-compute-process count is
nonzero; per §6 of the specification, a hold makes the device report busy).
Each process runs the polling loop: acquire the lock; enumerate the idle
devices; if enough are idle, take the first `num`, hold them (marking them
busy), record the claim set and release the lock; otherwise release the lock
and retry.  Every access a process makes to the shared backend state happens
between its lock acquisition and release, so the critical section is a single
atomic step of the model. -/

/-- Program counter of one scheduler instance: before the loop iteration,
inside the critical section, or done (claimed or cancelled). -/
inductive SchedPC
  | start
  | locked
  | finished
deriving DecidableEq

/-- The shared state of two scheduler instances A and B: the lock holder
(`some false` = A, `some true` = B), the backend busy predicate, each
process's program counter and recorded claim set. -/
structure TwoSched where
  lockHolder : Option Bool
  busy : Nat → Bool
  pcA : SchedPC
  pcB : SchedPC
  claimA : Option (List Nat)
  claimB : Option (List Nat)

/-- `get_idle_gpu` over the model's busy predicate: the non-busy device
indices below `n`, ascending. -/
def idle_list (busy : Nat → Bool) (n : Nat) : List Nat :=
  (List.range n).filter (fun i => !(busy i))

/-- Holding each device of `l` (the placeholder allocations of main.rs lines
176–183): those devices now report busy. -/
def mark_busy (busy : Nat → Bool) (l : List Nat) : Nat → Bool :=
  fun i => busy i || l.contains i

/-- One interleaving step of the two contending schedulers: lock acquisition
(only when the lock is free), the lock-guarded enumerate-and-hold critical
section (successful claim or insufficient-resources retry), or cancellation of
a waiting process. -/
inductive SchedStep (n numA numB : Nat) : TwoSched → TwoSched → Prop
  | acquireA (s : TwoSched) :
      s.lockHolder = none → s.pcA = .start →
      SchedStep n numA numB s { s with lockHolder := some false, pcA := .locked }
  | claimStepA (s : TwoSched) :
      s.lockHolder = some false → s.pcA = .locked →
      numA ≤ (idle_list s.busy n).length →
      SchedStep n numA numB s
        { s with lockHolder := none, pcA := .finished,
                 claimA := some ((idle_list s.busy n).take numA),
                 busy := mark_busy s.busy ((idle_list s.busy n).take numA) }
  | retryA (s : TwoSched) :
      s.lockHolder = some false → s.pcA = .locked →
      (idle_list s.busy n).length < numA →
      SchedStep n numA numB s { s with lockHolder := none, pcA := .start }
  | cancelA (s : TwoSched) :
      s.pcA = .start →
      SchedStep n numA numB s { s with pcA := .finished }
  | acquireB (s : TwoSched) :
      s.lockHolder = none → s.pcB = .start →
      SchedStep n numA numB s { s with lockHolder := some true, pcB := .locked }
  | claimStepB (s : TwoSched) :
      s.lockHolder = some true → s.pcB = .locked →
      numB ≤ (idle_list s.busy n).length →
      SchedStep n numA numB s
        { s with lockHolder := none, pcB := .finished,
                 claimB := some ((idle_list s.busy n).take numB),
                 busy := mark_busy s.busy ((idle_list s.busy n).take numB) }
  | retryB (s : TwoSched) :
      s.lockHolder = some true → s.pcB = .locked →
      (idle_list s.busy n).length < numB →
      SchedStep n numA numB s { s with lockHolder := none, pcB := .start }
  | cancelB (s : TwoSched) :
      s.pcB = .start →
      SchedStep n numA numB s { s with pcB := .finished }

/-- The initial state of a run: lock free, backend busy state `busy0`, both
processes at the top of their loop, no claims. -/
def initSched (busy0 : Nat → Bool) : TwoSched :=
  ⟨none, busy0, .start, .start, none, none⟩

/-- Reachability of the two-scheduler model. -/
def SchedReachable (n numA numB : Nat) (s0 s : TwoSched) : Prop :=
  Relation.ReflTransGen (SchedStep n numA numB) s0 s

/-- The mutual-exclusion invariant: every claimed device reports busy, and the
two claim sets are disjoint. -/
def SchedInv (s : TwoSched) : Prop :=
  (∀ l, s.claimA = some l → ∀ x ∈ l, s.busy x = true) ∧
  (∀ l, s.claimB = some l → ∀ x ∈ l, s.busy x = true) ∧
  (∀ la lb, s.claimA = some la → s.claimB = some lb → la.Disjoint lb)

/-- The states of a concrete interleaving: two devices, each instance requests
one; A acquires the lock and claims device 0, then B acquires the lock and
claims device 1. -/
def c9s1 : TwoSched :=
  { initSched (fun _ => false) with lockHolder := some false, pcA := .locked }

def c9s2 : TwoSched :=
  { c9s1 with lockHolder := none, pcA := .finished,
              claimA := some ((idle_list c9s1.busy 2).take 1),
              busy := mark_busy c9s1.busy ((idle_list c9s1.busy 2).take 1) }

def c9s3 : TwoSched := { c9s2 with lockHolder := some true, pcB := .locked }

def c9s4 : TwoSched :=
  { c9s3 with lockHolder := none, pcB := .finished,
              claimB := some ((idle_list c9s3.busy 2).take 1),
              busy := mark_busy c9s3.busy ((idle_list c9s3.busy 2).take 1) }

/-! ## Lemmas: the template engine -/

lemma exceptMap_map {α β γ δ : Type} (f : β → γ) (g : γ → δ) (x : Except α β) :
    (x.map f).map g = x.map (g ∘ f) := by
  cases x <;> rfl

/-- Congruence of the count projection under one chunk step: if two chunk
computations agree on counts, so do their images under maps that bump the
counts identically and differ only in the emitted text. -/
lemma map_counts_cong {x y : Except (List Char) (List Char × Nat × Nat)}
    (h : x.map (fun r => r.2) = y.map (fun r => r.2))
    (out1 out2 : List Char → List Char) (bump : Nat × Nat → Nat × Nat) :
    (x.map (fun r => (out1 r.1, bump r.2))).map (fun r => r.2) =
    (y.map (fun r => (out2 r.1, bump r.2))).map (fun r => r.2) := by
  cases x <;> cases y <;> simp [Except.map] at h ⊢ <;> simp [h]

/-- The chunk processor's error/count behaviour does not depend on the
substitution string. -/
lemma processChunks_counts_indep (t1 t2 content : List Char) :
    ∀ chunks, (processChunks t1 content chunks).map (fun r => r.2) =
      (processChunks t2 content chunks).map (fun r => r.2) := by
  intro chunks
  induction chunks with
  | nil => rfl
  | cons ch rest ih =>
    by_cases h1 : ch = ['{', '}']
    · simp only [processChunks, if_pos h1]
      exact map_counts_cong ih (fun o => t1 ++ o) (fun o => t2 ++ o)
        (fun p => (p.1 + 1, p.2 + 1))
    · by_cases h2 : ch = ['{', '{']
      · simp only [processChunks, if_neg h1, if_pos h2]
        exact map_counts_cong ih (fun o => '{' :: o) (fun o => '{' :: o)
          (fun p => (p.1 + 1, p.2))
      · by_cases h3 : ch = ['}', '}']
        · simp only [processChunks, if_neg h1, if_neg h2, if_pos h3]
          exact map_counts_cong ih (fun o => '}' :: o) (fun o => '}' :: o)
            (fun p => (p.1 + 1, p.2))
        · simp only [processChunks, if_neg h1, if_neg h2, if_neg h3]

/-- The segment processor's error/count behaviour depends only on the command
characters, not on the substitution string or the accumulated output. -/
lemma procSegs_counts_indep (t1 t2 : List Char) :
    ∀ (segs : List Segment) (chrs acc1 acc2 : List Char) (tc tot : Nat),
    (procSegs t1 segs chrs acc1 tc tot).map (fun r => (r.template_count, r.total_count)) =
    (procSegs t2 segs chrs acc2 tc tot).map (fun r => (r.template_count, r.total_count)) := by
  intro segs
  induction segs with
  | nil => intro chrs acc1 acc2 tc tot; rfl
  | cons seg rest ih =>
    intro chrs acc1 acc2 tc tot
    cases seg with
    | Plain s e =>
      simp only [procSegs]
      exact ih _ _ _ _ _
    | Bracket s e =>
      by_cases hsp : chrs.take (e - s) = ['{'] ∨ chrs.take (e - s) = ['}'] ∨
          chrs.take (e - s) = ['}', '{']
      · simp only [procSegs, if_pos hsp]
        exact ih _ _ _ _ _
      · simp only [procSegs, if_neg hsp]
        have hpc := processChunks_counts_indep t1 t2 (chrs.take (e - s))
          (chunks2 (chrs.take (e - s)))
        cases hA : processChunks t1 (chrs.take (e - s)) (chunks2 (chrs.take (e - s))) with
        | error err =>
          rw [hA] at hpc
          cases hB : processChunks t2 (chrs.take (e - s)) (chunks2 (chrs.take (e - s))) with
          | error err2 =>
            rw [hB] at hpc
            simp only [Except.map] at hpc
            injection hpc with hpc
            subst hpc
            rfl
          | ok v => rw [hB] at hpc; simp [Except.map] at hpc
        | ok v =>
          rw [hA] at hpc
          cases hB : processChunks t2 (chrs.take (e - s)) (chunks2 (chrs.take (e - s))) with
          | error err2 => rw [hB] at hpc; simp [Except.map] at hpc
          | ok v2 =>
            rw [hB] at hpc
            obtain ⟨o, dtc, dtot⟩ := v
            obtain ⟨o2, dtc2, dtot2⟩ := v2
            simp only [Except.map] at hpc
            injection hpc with hpc
            injection hpc with h1 h2
            subst h1
            subst h2
            exact ih _ _ _ _ _

/-- The scanner yields a single open plain segment on a nonempty brace-free
suffix. -/
lemma scanLoop_plain_of_no_brace :
    ∀ (l : List (Nat × Char)) (s : Nat), (∀ p ∈ l, isBrace p.2 = false) →
      scanLoop (some (SegmentStatus.Plain s)) l = [Segment.Plain s USIZE_MAX] := by
  intro l
  induction l with
  | nil => intro s _; rfl
  | cons p rest ih =>
    intro s h
    obtain ⟨i, c⟩ := p
    have hc : isBrace c = false := h (i, c) (List.mem_cons_self _ _)
    simp only [scanLoop, hc]
    exact ih s (fun q hq => h q (List.mem_cons_of_mem _ hq))

/-- Characters of `charIndices` come from the underlying list. -/
lemma mem_charIndices : ∀ (cmd : List Char) (i : Nat) (p : Nat × Char),
    p ∈ charIndices i cmd → p.2 ∈ cmd := by
  intro cmd
  induction cmd with
  | nil => intro i p h; cases h
  | cons c cs ih =>
    intro i p h
    rcases List.mem_cons.mp h with rfl | h2
    · exact List.mem_cons_self _ _
    · exact List.mem_cons_of_mem _ (ih _ p h2)

/-! ## Lemmas: main.rs pre-validation -/

/-- Characterisation of the `has_template` fold: the result is true iff the
accumulator was already true or some argument expands (against the empty
substitution) with a positive `template_count`. -/
lemma has_template_scan_spec :
    ∀ (args : List (List Char)) (acc ht : Bool), has_template_scan args acc = .ok ht →
      (ht = true ↔ (acc = true ∨
        ∃ a ∈ args, ∃ r, process_command_template a [] = .ok r ∧ 0 < r.template_count)) := by
  intro args
  induction args with
  | nil =>
    intro acc ht h
    injection h with h
    subst h
    simp
  | cons a rest ih =>
    intro acc ht h
    simp only [has_template_scan] at h
    cases hr : process_command_template a [] with
    | error e => rw [hr] at h; cases h
    | ok r =>
      rw [hr] at h
      rw [ih _ _ h]
      constructor
      · rintro (hacc | ⟨a', ha', r', hr', hpos⟩)
        · rcases Bool.or_eq_true .. ▸ hacc with h1 | h2
          · exact Or.inl h1
          · exact Or.inr ⟨a, List.mem_cons_self _ _, r, hr, of_decide_eq_true h2⟩
        · exact Or.inr ⟨a', List.mem_cons_of_mem _ ha', r', hr', hpos⟩
      · rintro (hacc | ⟨a', ha', r', hr', hpos⟩)
        · left
          simp [hacc]
        · rcases List.mem_cons.mp ha' with rfl | hmem
          · left
            rw [hr] at hr'
            injection hr' with hr'
            subst hr'
            simp [hpos]
          · right
            exact ⟨a', hmem, r', hr', hpos⟩

/-! ## Lemmas: the two-scheduler model -/

lemma busy_eq_false_of_mem_idle_list {busy : Nat → Bool} {n x : Nat}
    (h : x ∈ idle_list busy n) : busy x = false := by
  have := (List.mem_filter.mp h).2
  simpa using this

lemma mark_busy_of_mem {busy : Nat → Bool} {l : List Nat} {x : Nat} (h : x ∈ l) :
    mark_busy busy l x = true := by
  unfold mark_busy
  rw [Bool.or_eq_true]
  exact Or.inr (List.elem_eq_true_of_mem h)

lemma mark_busy_mono {busy : Nat → Bool} {l : List Nat} {x : Nat} (h : busy x = true) :
    mark_busy busy l x = true := by
  simp [mark_busy, h]

lemma schedInv_step {n a b : Nat} {s s' : TwoSched} (hst : SchedStep n a b s s')
    (hinv : SchedInv s) : SchedInv s' := by
  obtain ⟨hA, hB, hD⟩ := hinv
  cases hst with
  | acquireA h1 h2 => exact ⟨hA, hB, hD⟩
  | retryA h1 h2 h3 => exact ⟨hA, hB, hD⟩
  | cancelA h1 => exact ⟨hA, hB, hD⟩
  | acquireB h1 h2 => exact ⟨hA, hB, hD⟩
  | retryB h1 h2 h3 => exact ⟨hA, hB, hD⟩
  | cancelB h1 => exact ⟨hA, hB, hD⟩
  | claimStepA h1 h2 h3 =>
    refine ⟨?_, ?_, ?_⟩
    · intro l hl x hx
      injection hl with hl
      subst hl
      exact mark_busy_of_mem hx
    · intro l hl x hx
      exact mark_busy_mono (hB l hl x hx)
    · intro la lb hla hlb
      injection hla with hla
      subst hla
      intro x hxa hxb
      have hidle : x ∈ idle_list s.busy n := List.take_subset _ _ hxa
      have hf : s.busy x = false := busy_eq_false_of_mem_idle_list hidle
      have ht : s.busy x = true := hB lb hlb x hxb
      simp [hf] at ht
  | claimStepB h1 h2 h3 =>
    refine ⟨?_, ?_, ?_⟩
    · intro l hl x hx
      exact mark_busy_mono (hA l hl x hx)
    · intro l hl x hx
      injection hl with hl
      subst hl
      exact mark_busy_of_mem hx
    · intro la lb hla hlb
      injection hlb with hlb
      subst hlb
      intro x hxa hxb
      have hidle : x ∈ idle_list s.busy n := List.take_subset _ _ hxb
      have hf : s.busy x = false := busy_eq_false_of_mem_idle_list hidle
      have ht : s.busy x = true := hA la hla x hxa
      simp [hf] at ht

lemma schedInv_reachable {n a b : Nat} {busy0 : Nat → Bool} {s : TwoSched}
    (h : SchedReachable n a b (initSched busy0) s) : SchedInv s := by
  induction h with
  | refl => refine ⟨?_, ?_, ?_⟩ <;> simp [initSched]
  | tail _ hstep ih => exact schedInv_step hstep ih

lemma c9_trace : SchedReachable 2 1 1 (initSched (fun _ => false)) c9s4 := by
  refine Relation.ReflTransGen.head (SchedStep.acquireA _ rfl rfl) ?_
  refine Relation.ReflTransGen.head (SchedStep.claimStepA c9s1 rfl rfl (by decide)) ?_
  refine Relation.ReflTransGen.head (SchedStep.acquireB c9s2 rfl rfl) ?_
  exact Relation.ReflTransGen.single (SchedStep.claimStepB c9s3 rfl rfl (by decide))

/-! ## The claims -/

/-- C1 (code bug): the spec promises that every un-escaped `(` open-close `)`
marker of a UTF-8 token is substituted, but on `['é', '(', ')']`-style tokens —
any token with a multi-byte character before a marker — the scanner's byte
offsets are consumed as character counts, the plain segment swallows the
opening brace, and the marker survives unsubstituted with count 0.  The same
token with an ASCII first character substitutes correctly. -/
theorem claim1_utf8_bug_eval :
    process_command_template ['é', '{', '}'] ['X'] = .ok ⟨['é', '{', '}'], 0, 0⟩ ∧
    process_command_template ['a', '{', '}'] ['X'] = .ok ⟨['a', 'X'], 1, 1⟩ :=
  ⟨rfl, rfl⟩

/-- C2 counterexample: the escape-only command `"{{}}"` has no genuine
substitution (`total_count = 0`), yet pre-validation sets `has_template`
(because `template_count` also counts escapes) and the environment binding is
suppressed — contradicting "bound unless at least one real template hit". -/
theorem claim2_counterexample :
    env_decision [['{', '{', '}', '}']] false = .ok false ∧
    process_command_template ['{', '{', '}', '}'] [] = .ok ⟨['{', '}'], 2, 0⟩ :=
  ⟨rfl, rfl⟩

/-- C2 (amended): the environment variable is bound unless the command
contained at least one template marker — substitution or escape, i.e. some
argument with positive `template_count` — and the caller did not force the
binding.  The claim's particular cases hold: a command with no markers gets
the binding, a command with a real substitution does not. -/
theorem claim2_env_binding :
    (∀ args ht, has_template_scan args false = .ok ht →
      (ht = true ↔ ∃ a ∈ args, ∃ r,
        process_command_template a [] = .ok r ∧ 0 < r.template_count)) ∧
    (∀ ht force, cuda_env_bound ht force = true ↔ (ht = false ∨ force = true)) ∧
    env_decision ["run".toList] false = .ok true ∧
    env_decision ["run".toList, "--gpu".toList, ['{', '}']] false = .ok false := by
  refine ⟨?_, ?_, rfl, rfl⟩
  · intro args ht h
    simpa using has_template_scan_spec args false ht h
  · intro ht force
    cases ht <;> cases force <;> simp [cuda_env_bound]

/-- Witness for C2: instantiating the characterisation on the one-argument
command `"{}"`, whose pre-validation returns true. -/
theorem claim2_env_binding_witness :
    (true = true ↔ ∃ a ∈ [['{', '}']], ∃ r,
      process_command_template a [] = .ok r ∧ 0 < r.template_count) :=
  claim2_env_binding.1 [['{', '}']] true rfl

/-- C3: when at least `num` devices are idle, the claimed list has exactly
`num` members, distinct, all drawn from the idle list, in ascending order, and
they are the lowest identifiers (every idle identifier left behind exceeds
every chosen one); concretely, requesting 2 of idle `[0, 1, 2]` claims
`[0, 1]`, joined as `"0,1"`. -/
theorem claim3_truncation (running : Nat → Nat) (device_count num : Nat)
    (h : num ≤ (get_idle_gpu running device_count).length) :
    (claim_gpus running device_count num).length = num ∧
    (claim_gpus running device_count num).Nodup ∧
    (∀ x ∈ claim_gpus running device_count num, x ∈ get_idle_gpu running device_count) ∧
    List.Sorted (· < ·) (claim_gpus running device_count num) ∧
    (∀ x ∈ claim_gpus running device_count num, ∀ y ∈ get_idle_gpu running device_count,
      y ∉ claim_gpus running device_count num → x < y) ∧
    claim_gpus (fun _ => 0) 3 2 = [0, 1] ∧
    gpu_list_str (claim_gpus (fun _ => 0) 3 2) = "0,1" := by
  have hsorted : List.Pairwise (· < ·) (get_idle_gpu running device_count) :=
    (List.pairwise_lt_range device_count).filter _
  have hsorted' : List.Pairwise (· < ·) (claim_gpus running device_count num) :=
    hsorted.sublist (List.take_sublist _ _)
  refine ⟨?_, ?_, ?_, ?_, ?_, rfl, rfl⟩
  · show ((get_idle_gpu running device_count).take num).length = num
    rw [List.length_take]
    exact Nat.min_eq_left h
  · exact hsorted'.imp Nat.ne_of_lt
  · intro x hx
    exact List.take_subset _ _ hx
  · exact hsorted'
  · intro x hx y hy hyn
    have hsplit := hsorted
    rw [← List.take_append_drop num (get_idle_gpu running device_count)] at hsplit
    rw [← List.take_append_drop num (get_idle_gpu running device_count)] at hy
    rcases List.mem_append.mp hy with h1 | h2
    · exact absurd h1 hyn
    · exact (List.pairwise_append.mp hsplit).2.2 x hx y h2

/-- Witness for C3: three idle devices, two requested. -/
theorem claim3_truncation_witness : (claim_gpus (fun _ => 0) 3 2).length = 2 :=
  (claim3_truncation (fun _ => 0) 3 2 (by decide)).1

/-- C4 counterexample: expanding `"{}{"` with substitution `"X"` does not
succeed with `"X{"` — the whole three-character run is a single bracket span,
chunked as a substitution followed by a dangling single brace, which is an
error. -/
theorem claim4_counterexample :
    process_command_template ['{', '}', '{'] ['X'] = .error ['{', '}', '{'] ∧
    process_command_template ['{', '}', '{'] ['X'] ≠ .ok ⟨['X', '{'], 1, 1⟩ := by
  have h : process_command_template ['{', '}', '{'] ['X'] = .error ['{', '}', '{'] := rfl
  exact ⟨h, by simp [h]⟩

/-- C4 (amended): for every substitution string, expanding `"{}{"` fails with
the invalid-syntax error naming the whole bracket span: the token is one
maximal brace run, not a marker followed by a literal brace. -/
theorem claim4_bracket_span_error (tpl : List Char) :
    process_command_template ['{', '}', '{'] tpl = .error ['{', '}', '{'] := by
  have hscan : scanLoop none (charIndices 0 (['{', '}', '{'] : List Char)) =
      [Segment.Bracket 0 USIZE_MAX] := rfl
  have htake : List.take (USIZE_MAX - 0) (['{', '}', '{'] : List Char) = ['{', '}', '{'] := rfl
  have hdrop : List.drop (USIZE_MAX - 0) (['{', '}', '{'] : List Char) = [] := rfl
  simp only [process_command_template]
  rw [hscan]
  simp only [procSegs, htake, hdrop]
  norm_num [chunks2, processChunks, Except.map,
    (show ('{' : Char) ≠ '}' by decide), (show ('}' : Char) ≠ '{' by decide),
    List.cons_ne_nil]

/-- C5 counterexample: expanding `"a{}b{{c"` with substitution `"X"` does not
fail — `(` double-open `)` is a valid escape — it succeeds with `"aXb{c"`,
marker count 2 and substitution count 1. -/
theorem claim5_counterexample :
    process_command_template ['a', '{', '}', 'b', '{', '{', 'c'] ['X'] =
      .ok ⟨['a', 'X', 'b', '{', 'c'], 2, 1⟩ := rfl

/-- C5 (amended): for every substitution string, expanding `"a{}b{{c"`
succeeds: the marker is substituted and the double-open escape emits a literal
open brace, with marker count 2 and substitution count 1. -/
theorem claim5_escape_succeeds (tpl : List Char) :
    process_command_template ['a', '{', '}', 'b', '{', '{', 'c'] tpl =
      .ok ⟨'a' :: (tpl ++ ['b', '{', 'c']), 2, 1⟩ := by
  have hscan : scanLoop none
      (charIndices 0 (['a', '{', '}', 'b', '{', '{', 'c'] : List Char)) =
      [Segment.Plain 0 1, Segment.Bracket 1 3, Segment.Plain 3 4,
       Segment.Bracket 4 6, Segment.Plain 6 USIZE_MAX] := rfl
  have htake : List.take (USIZE_MAX - 6) (['c'] : List Char) = ['c'] := rfl
  have hdrop : List.drop (USIZE_MAX - 6) (['c'] : List Char) = [] := rfl
  simp only [process_command_template]
  rw [hscan]
  norm_num [procSegs, htake, hdrop, chunks2, processChunks, Except.map,
    (show ('{' : Char) ≠ '}' by decide), (show ('}' : Char) ≠ '{' by decide),
    List.cons_ne_nil]

/-- C6: expanding `"{{}}"` with any substitution string yields the literal
two-character brace string, with substitution count (`total_count`) 0 and
marker count (`template_count`) 2; in general a double-open or double-close
chunk emits one literal brace, bumps the marker count and leaves the
substitution count unchanged. -/
theorem claim6_escapes (tpl : List Char) :
    process_command_template ['{', '{', '}', '}'] tpl = .ok ⟨['{', '}'], 2, 0⟩ ∧
    (∀ content rest, processChunks tpl content (['{', '{'] :: rest) =
      (processChunks tpl content rest).map fun r => ('{' :: r.1, r.2.1 + 1, r.2.2)) ∧
    (∀ content rest, processChunks tpl content (['}', '}'] :: rest) =
      (processChunks tpl content rest).map fun r => ('}' :: r.1, r.2.1 + 1, r.2.2)) := by
  refine ⟨?_, ?_, ?_⟩
  · have hscan : scanLoop none (charIndices 0 (['{', '{', '}', '}'] : List Char)) =
        [Segment.Bracket 0 USIZE_MAX] := rfl
    have htake : List.take (USIZE_MAX - 0) (['{', '{', '}', '}'] : List Char) =
        ['{', '{', '}', '}'] := rfl
    have hdrop : List.drop (USIZE_MAX - 0) (['{', '{', '}', '}'] : List Char) = [] := rfl
    simp only [process_command_template]
    rw [hscan]
    simp only [procSegs, htake, hdrop]
    norm_num [chunks2, processChunks, Except.map,
      (show ('{' : Char) ≠ '}' by decide), (show ('}' : Char) ≠ '{' by decide),
      List.cons_ne_nil]
  · intro content rest
    simp only [processChunks]
    rw [if_neg (by decide)]
    simp
  · intro content rest
    simp only [processChunks]
    rw [if_neg (by decide), if_neg (by decide)]
    simp

/-- C7: on a command with no brace characters (of representable Rust-string
length), expansion is the identity for every substitution string and both
counts are zero. -/
theorem claim7_no_marker_identity (command tpl : List Char)
    (hb : ∀ c ∈ command, c ≠ '{' ∧ c ≠ '}')
    (hlen : command.length ≤ USIZE_MAX) :
    process_command_template command tpl = .ok ⟨command, 0, 0⟩ := by
  have hb' : ∀ p ∈ charIndices 0 command, isBrace p.2 = false := by
    intro p hp
    obtain ⟨h1, h2⟩ := hb p.2 (mem_charIndices command 0 p hp)
    simp [isBrace, h1, h2]
  cases hcmd : command with
  | nil => rfl
  | cons c cs =>
    have hscan : scanLoop none (charIndices 0 command) = [Segment.Plain 0 USIZE_MAX] := by
      rw [hcmd]
      simp only [charIndices]
      have hc : isBrace c = false := by
        have := hb' (0, c) (by rw [hcmd]; simp [charIndices])
        simpa using this
      simp only [scanLoop, hc]
      refine scanLoop_plain_of_no_brace _ 0 ?_
      intro q hq
      refine hb' q ?_
      rw [hcmd]
      simp only [charIndices]
      exact List.mem_cons_of_mem _ hq
    rw [← hcmd]
    simp only [process_command_template]
    rw [hscan]
    simp only [procSegs, Nat.sub_zero, List.nil_append]
    rw [List.take_of_length_le hlen]

/-- Witness for C7: the brace-free command `"run"`. -/
theorem claim7_no_marker_identity_witness :
    process_command_template "run".toList "0,1".toList = .ok ⟨"run".toList, 0, 0⟩ :=
  claim7_no_marker_identity "run".toList "0,1".toList (by decide) (by decide)

/-- C8: acquiring the lock file succeeds when it already exists (the first
open returns it), and when creation of a missing lock file loses the race
(`AlreadyExists`), the sequence falls back to a plain open — returning that
open's result, hence success rather than an error when the reopen succeeds. -/
theorem claim8_open_or_create (f : Nat) (createRes reopenRes : Except IoErrorKind Nat) :
    open_or_create_file (.ok f) createRes reopenRes = .ok f ∧
    fileRWLock_new true (.ok f) createRes reopenRes = some (.ok f) ∧
    (∀ g : Nat, open_or_create_file (.error .notFound) (.error .alreadyExists) (.ok g) = .ok g) ∧
    (∀ reopen, open_or_create_file (.error .notFound) (.error .alreadyExists) reopen = reopen) :=
  ⟨rfl, rfl, fun _ => rfl, fun _ => rfl⟩

/-- C9: for every pair of concurrent scheduler instances on the same host
contending for overlapping idle sets, the exclusive cross-process lock around
the enumerate-and-hold critical section guarantees that the intersection of
their two resulting ClaimSets is empty: in every state reachable from the
initial state of the two-scheduler model, if both instances have recorded a
claim set, the two sets are disjoint. -/
theorem claim9_concurrent_claims_disjoint (n numA numB : Nat) (busy0 : Nat → Bool)
    (s : TwoSched) (h : SchedReachable n numA numB (initSched busy0) s)
    (la lb : List Nat) (ha : s.claimA = some la) (hb : s.claimB = some lb) :
    la.Disjoint lb :=
  (schedInv_reachable h).2.2 la lb ha hb

/-- Witness for C9: along the concrete interleaving `c9_trace`, instance A
claims device 0 and instance B claims device 1, and the theorem yields their
disjointness. -/
theorem claim9_concurrent_claims_disjoint_witness : ([0] : List Nat).Disjoint [1] :=
  claim9_concurrent_claims_disjoint 2 1 1 (fun _ => false) c9s4 c9_trace [0] [1] rfl rfl

/-- C10: whether expansion succeeds, the error payload when it fails, and both
reported counts when it succeeds depend only on the command token, not on the
substitution string — which is what makes main.rs's pre-validation against the
empty substitution string sound. -/
theorem claim10_substitution_independent (command t1 t2 : List Char) :
    (process_command_template command t1).map
      (fun r => (r.template_count, r.total_count)) =
    (process_command_template command t2).map
      (fun r => (r.template_count, r.total_count)) ∧
    (process_command_template command t1).isOk =
    (process_command_template command t2).isOk := by
  have h := procSegs_counts_indep t1 t2 (scanLoop none (charIndices 0 command))
    command [] [] 0 0
  refine ⟨h, ?_⟩
  cases hA : process_command_template command t1 with
  | error e =>
    cases hB : process_command_template command t2 with
    | error e2 => rfl
    | ok r =>
      rw [process_command_template] at hA hB
      rw [hA, hB] at h
      simp [Except.map] at h
  | ok r =>
    cases hB : process_command_template command t2 with
    | error e2 =>
      rw [process_command_template] at hA hB
      rw [hA, hB] at h
      simp [Except.map] at h
    | ok r2 => rfl

end GpuWaiter
